import Mathlib

/-!
Shallow embedding of the lvgl-rs code generator (src/lvgl-codegen/src/lib.rs).

Rust strings are modelled as Lean `String`; the string predicates of the
source (`starts_with`, `ends_with`, `contains`, `replace`) are modelled by
the corresponding operations on the underlying character lists.  The
`TokenStream` fragments produced by the `quote!` macro are modelled by small
inductive types whose constructors stand for the concrete token fragments
the source quotes (each constructor is documented with the Rust tokens it
denotes).  Fallible emission (`WrapperResult`) is modelled with `Except`.
-/

set_option autoImplicit false

/-- Substring test over character lists, modelling Rust's `String::contains`. -/
def hasSubstr (pat : List Char) : List Char → Bool
  | [] => pat.isEmpty
  | c :: rest => pat.isPrefixOf (c :: rest) || hasSubstr pat rest

/-- Fuel-indexed worker for `removeAll`.  Each step consumes at least one
character of the remaining list, so fuel equal to the list length always
suffices. -/
def removeAllAux (pat : List Char) : Nat → List Char → List Char
  | _, [] => []
  | 0, s => s
  | fuel + 1, c :: rest =>
    if pat ≠ [] ∧ pat.isPrefixOf (c :: rest) then
      removeAllAux pat fuel ((c :: rest).drop pat.length)
    else
      c :: removeAllAux pat fuel rest

/-- Models Rust's `str::replace(pat, "")`: removes every non-overlapping
occurrence of `pat`, scanning left to right. -/
def removeAll (pat s : List Char) : List Char :=
  removeAllAux pat s.length s

/-- Concatenation of the images of `g`, modelling `Iterator::flat_map`; also
used to state what the token-accumulating folds of the source produce. -/
def concatMap {α β : Type} (g : α → List β) : List α → List β
  | [] => []
  | x :: xs => g x ++ concatMap g xs

/-- Models `Iterator::enumerate`, pairing each element with its index,
starting from `n`. -/
def enumerate {α : Type} (n : Nat) : List α → List (Nat × α)
  | [] => []
  | x :: xs => (n, x) :: enumerate (n + 1) xs

/-- The fixed primitive-type table (`TYPE_MAPPINGS` in the source), as an
association list from C type spellings to Rust type names. -/
def TYPE_MAPPINGS : List (String × String) :=
  [("uint16_t", "u16"), ("int32_t", "i32"), ("uint8_t", "u8"),
   ("bool", "bool"), ("_Bool", "bool"), ("const char *", "&str")]

/-- The error type of the wrapper generator: `Skip` signals an unsupported
shape and is absorbed, never fatal. -/
inductive WrapperError
  | Skip
deriving DecidableEq, Repr

/-- Result type of every `code` emission function. -/
abbrev WrapperResult (α : Type) : Type := Except WrapperError α

/-- Models iterating a Rust `Result` (its `IntoIterator` yields the `Ok`
value or nothing); this is what the `flat_map` in `LvWidget::code` uses to
absorb per-method skips. -/
def resultToList {α : Type} : WrapperResult α → List α
  | .ok a => [a]
  | .error _ => []

/-- `LvType`: wraps one textual type spelling exactly as the AST displays it. -/
structure LvType where
  typ : String
deriving DecidableEq, Repr

/-- `LvArg`: an argument name together with its type. -/
structure LvArg where
  name : String
  typ : LvType
deriving DecidableEq, Repr

/-- `LvFunc`: a function name, its ordered arguments, and an optional return
type (`None` for C `void`). -/
structure LvFunc where
  name : String
  args : List LvArg
  ret : Option LvType
deriving DecidableEq, Repr

/-- `LvWidget`: a widget name together with its accumulated method list. -/
structure LvWidget where
  name : String
  methods : List LvFunc
deriving DecidableEq, Repr

/-- `LvType::is_const`: the spelling starts with `"const "`. -/
def LvType.is_const (t : LvType) : Bool :=
  "const ".data.isPrefixOf t.typ.data

/-- `LvType::is_str`: the spelling ends with `"char *"`. -/
def LvType.is_str (t : LvType) : Bool :=
  "char *".data.isSuffixOf t.typ.data

/-- Target-language type tokens produced by the type mapper: `strRef` stands
for the quoted `&str`, `ident s` for a plain identifier `s` from the table. -/
inductive RustTypeTok
  | strRef
  | ident (name : String)
deriving DecidableEq, Repr

/-- `LvType::code` (impl `Rusty for LvType`): exact lookup of the spelling in
`TYPE_MAPPINGS`; on a hit, emit `&str` when `is_str` holds and the mapped
identifier otherwise; on a miss, fail with `Skip`. -/
def LvType.code (t : LvType) (_parent : LvArg) : WrapperResult RustTypeTok :=
  match TYPE_MAPPINGS.lookup t.typ with
  | some name => .ok (if t.is_str then .strRef else .ident name)
  | none => .error .Skip

/-- Rust keywords rejected by `syn` when parsing a plain identifier;
`LvArg::get_name_ident` falls back to a raw identifier for these (models the
behaviour of `syn::parse_str::<syn::Ident>` on the argument name). -/
def RUST_KEYWORDS : List String :=
  ["as", "break", "const", "continue", "crate", "dyn", "else", "enum", "false",
   "fn", "for", "if", "impl", "in", "let", "loop", "match", "mod", "move", "mut",
   "pub", "ref", "return", "self", "static", "struct", "super", "trait", "true",
   "type", "use", "where", "while"]

/-- `LvArg::get_name_ident`: a name colliding with a Rust keyword is escaped
with the raw-identifier marker instead of being renamed. -/
def LvArg.get_name_ident (a : LvArg) : String :=
  if RUST_KEYWORDS.contains a.name then "r#" ++ a.name else a.name

/-- Pre-call marshalling statements a generated method body can contain:
`cstrInit i` stands for `let i = cstr_core::CString::new(i)?;`. -/
inductive ProcStmt
  | cstrInit (ident : String)
deriving DecidableEq, Repr

/-- Call-site argument expressions of the generated native call:
`parentRawAsMut` stands for `parent.raw()?.as_mut()`, `nullMut` for
`core::ptr::null_mut()`, `selfCoreRawAsMut` for `self.core.raw()?.as_mut()`,
`ptrOf i` for `i.as_ptr()`, and `plain i` for the identifier `i` itself. -/
inductive CallArg
  | parentRawAsMut
  | nullMut
  | selfCoreRawAsMut
  | ptrOf (ident : String)
  | plain (ident : String)
deriving DecidableEq, Repr

/-- `LvArg::get_processing`: a string-typed argument gets an owned `CString`
construction statement before the call; any other argument needs no
pre-processing (the source returns an empty token stream). -/
def LvArg.get_processing (a : LvArg) : List ProcStmt :=
  if a.typ.is_str then [ProcStmt.cstrInit a.get_name_ident] else []

/-- `LvArg::get_value_usage`: a string-typed argument is passed as
`ident.as_ptr()`, any other argument is passed through unchanged. -/
def LvArg.get_value_usage (a : LvArg) : CallArg :=
  if a.typ.is_str then CallArg.ptrOf a.get_name_ident else CallArg.plain a.get_name_ident

/-- `LvArg::get_type`. -/
def LvArg.get_type (a : LvArg) : LvType :=
  a.typ

/-- The receiver of a generated method: `selfRef` stands for `&self`,
`selfMutRef` for `&mut self`. -/
inductive Receiver
  | selfRef
  | selfMutRef
deriving DecidableEq, Repr

/-- Parameter-list fragments of a generated method: the receiver, or a
`name: type` parameter declaration. -/
inductive ParamDecl
  | recv (r : Receiver)
  | typed (ident : String) (typ : RustTypeTok)
deriving DecidableEq, Repr

/-- `LvArg::code` (impl `Rusty for LvArg`): maps the argument type via the
type mapper and emits the `name: type` declaration, propagating `Skip`. -/
def LvArg.code (a : LvArg) (_parent : LvFunc) : WrapperResult ParamDecl :=
  match a.typ.code a with
  | .ok t => .ok (ParamDecl.typed a.get_name_ident t)
  | .error e => .error e

/-- `LvFunc::is_method`: at least one argument, and the first argument's type
spelling contains `"lv_obj_t"`. -/
def LvFunc.is_method (f : LvFunc) : Bool :=
  match f.args with
  | [] => false
  | first_arg :: _ => hasSubstr "lv_obj_t".data first_arg.typ.typ.data

/-- Models `Result::unwrap` on an argument's emitted declaration.
`LvFunc::code` calls it only after checking that every argument past the
first maps successfully, so the error branch (a panic in the source) is
unreachable there; an arbitrary placeholder stands in for the panic. -/
def unwrapParamDecl (r : WrapperResult ParamDecl) : ParamDecl :=
  match r with
  | .ok d => d
  | .error _ => ParamDecl.recv Receiver.selfMutRef

/-- The content of a generated (non-constructor) method: the
template-stripped name, the parameter list, the pre-call marshalling
statements, the native function name, and the call-site arguments. -/
structure MethodCode where
  func_name : String
  args_decl : List ParamDecl
  args_processing : List ProcStmt
  original_func_name : String
  args_call : List CallArg
deriving DecidableEq, Repr

/-- Generated code for one function: either the fixed-shape generic
constructor (`pub fn new<C>(parent: &mut C)` calling the named native create
function with the given call arguments), or a regular method. -/
inductive FnCode
  | ctor (original_func_name : String) (args_call : List CallArg)
  | method (m : MethodCode)
deriving DecidableEq, Repr

/-- `LvFunc::code` (impl `Rusty for LvFunc`): the constructor path when the
template-stripped name equals `"create"`; otherwise `Skip` when a return
type is present, `Skip` when some argument past the first fails to map, and
otherwise the assembled method, built by three enumerated folds over the
arguments exactly as in the source (receiver for index 0, the argument's own
emission for the rest). -/
def LvFunc.code (f : LvFunc) (parent : LvWidget) : WrapperResult FnCode :=
  let templ := "lv_" ++ parent.name ++ "_"
  let new_name : String := ⟨removeAll templ.data f.name.data⟩
  if new_name = "create" then
    .ok (FnCode.ctor f.name [CallArg.parentRawAsMut, CallArg.nullMut])
  else if f.ret.isSome then
    .error WrapperError.Skip
  else if (f.args.drop 1).all (fun a => (a.code f).isOk) then
    .ok (FnCode.method
      { func_name := new_name,
        args_decl := (enumerate 0 f.args).foldl (fun args ia =>
          args ++ (if ia.1 = 0 then
            [ParamDecl.recv (if ia.2.get_type.is_const then Receiver.selfRef else Receiver.selfMutRef)]
          else
            [unwrapParamDecl (ia.2.code f)])) [],
        args_processing := (enumerate 0 f.args).foldl (fun args ia =>
          args ++ (if ia.1 = 0 then [] else ia.2.get_processing)) [],
        original_func_name := f.name,
        args_call := (enumerate 0 f.args).foldl (fun args ia =>
          args ++ (if ia.1 = 0 then [CallArg.selfCoreRawAsMut] else [ia.2.get_value_usage])) [] })
  else
    .error WrapperError.Skip

/-- Worker for `to_pascal_case`: drop underscores and capitalize the first
letter of each underscore-separated segment. -/
def pascalGo : Bool → List Char → List Char
  | _, [] => []
  | up, c :: rest =>
    if c = '_' then pascalGo true rest
    else (if up then c.toUpper else c) :: pascalGo false rest

/-- Models the Inflector crate's `to_pascal_case` on the snake_case widget
names the generator feeds it (external dependency, modelled by its
documented behaviour on such inputs). -/
def to_pascal_case (s : String) : String :=
  ⟨pascalGo true s.data⟩

/-- Generated code for one widget: the `define_object!(Name)` declaration
(holding the derived PascalCase identifier) plus the impl block containing
the emitted methods. -/
structure WidgetCode where
  widget_name : String
  methods : List FnCode
deriving DecidableEq, Repr

/-- `LvWidget::code` (impl `Rusty for LvWidget`): `Skip` for the generic
`"obj"`; otherwise a PascalCase object declaration and the `flat_map` of the
methods' code (a `Result` iterates as zero-or-one items, so per-method
skips are absorbed). -/
def LvWidget.code (w : LvWidget) (_parent : Unit) : WrapperResult WidgetCode :=
  if w.name = "obj" then
    .error WrapperError.Skip
  else
    .ok { widget_name := to_pascal_case w.name,
          methods := concatMap (fun m => resultToList (m.code w)) w.methods }

/-- Regex worker for the tail after the leading `"lv_"`: greedily capture
characters other than an underscore, then require the literal `"_create"`
and the end of the name (the `([^_]+)_create$` part of the pattern; the
nonemptiness of the capture is enforced by the caller). -/
def matchTail : List Char → Option (List Char)
  | [] => none
  | c :: rest =>
    if c = '_' then
      if rest = "create".data then some [] else none
    else
      (matchTail rest).map (fun wtail => c :: wtail)

/-- Models `Regex::captures` for the anchored create-function pattern
(`^` + lib prefix + `([^_]+)_create` + `$`), returning capture group 1. -/
def captures_create (name : String) : Option String :=
  match name.data with
  | 'l' :: 'v' :: '_' :: rest =>
    match matchTail rest with
    | some wname => if wname.isEmpty then none else some ⟨wname⟩
    | none => none
  | _ => none

/-- `CodeGen::get_widget_names`: keep the functions whose name matches the
create pattern and which have exactly two arguments, and collect the
captured widget names. -/
def get_widget_names (functions : List LvFunc) : List String :=
  (functions.filter (fun e => (captures_create e.name).isSome && e.args.length == 2)).filterMap
    (fun f => captures_create f.name)

/-- The assignment guard of `CodeGen::extract_widgets`: the function name
starts with the lib prefix followed by the widget name, and the function is
a method. -/
def widget_match (widget_name : String) (f : LvFunc) : Bool :=
  ("lv_" ++ widget_name).data.isPrefixOf f.name.data && f.is_method

/-- Models `ws.entry(name).or_insert_with(empty widget).methods.push(f)` on
an association list of widgets keyed by widget name. -/
def insert_method : List LvWidget → String → LvFunc → List LvWidget
  | [], n, f => [⟨n, [f]⟩]
  | w :: ws, n, f =>
    if w.name = n then ⟨w.name, w.methods ++ [f]⟩ :: ws
    else w :: insert_method ws n f

/-- `CodeGen::extract_widgets`: discover the widget names, then fold over all
functions, assigning each function to every discovered widget whose guard it
passes; the accumulated map's values are the resulting widgets. -/
def extract_widgets (functions : List LvFunc) : List LvWidget :=
  let widget_names := get_widget_names functions
  functions.foldl (fun ws f =>
    widget_names.foldl (fun ws' widget_name =>
      if widget_match widget_name f then insert_method ws' widget_name f else ws') ws) []

/-- Test fixture: a create function whose argument types do not mention the
object-handle type (as in the repository's own unit test data), so it does
not qualify as a method. -/
def btnCreateAbcFn : LvFunc :=
  ⟨"lv_btn_create", [⟨"parent", ⟨"abc"⟩⟩, ⟨"copy_from", ⟨"bcf"⟩⟩], none⟩

/-- Test fixture: a function list whose single discovered widget name has
zero qualifying methods. -/
def fsNoMethods : List LvFunc :=
  [btnCreateAbcFn]

/-- Test fixture: a create function for the widget name btn, with an
object-typed first argument. -/
def btnCreateFn : LvFunc :=
  ⟨"lv_btn_create", [⟨"parent", ⟨"lv_obj_t *"⟩⟩, ⟨"copy", ⟨"const lv_obj_t *"⟩⟩], none⟩

/-- Test fixture: a create function for the widget name btnmatrix, whose
name also starts with the btn widget's name template. -/
def btnmatrixCreateFn : LvFunc :=
  ⟨"lv_btnmatrix_create", [⟨"parent", ⟨"lv_obj_t *"⟩⟩, ⟨"copy", ⟨"const lv_obj_t *"⟩⟩], none⟩

/-- Test fixture: the function list exhibiting the overlapping widget-name
assignment. -/
def fsBtnPair : List LvFunc :=
  [btnCreateFn, btnmatrixCreateFn]

/-- Test fixture: an empty widget named arc. -/
def arcEmptyWidget : LvWidget :=
  ⟨"arc", []⟩

/-- Test fixture: a getter with a return type (so its emission must skip). -/
def getAngleFn : LvFunc :=
  ⟨"lv_arc_get_angle", [⟨"arc", ⟨"const lv_obj_t *"⟩⟩], some ⟨"uint16_t"⟩⟩

/-- Test fixture: the arc create function, with a return type and a copy
argument, as in the repository's own unit tests. -/
def arcCreateFn : LvFunc :=
  ⟨"lv_arc_create", [⟨"par", ⟨"lv_obj_t *"⟩⟩, ⟨"copy", ⟨"const lv_obj_t *"⟩⟩], some ⟨"lv_obj_t *"⟩⟩

/-- Test fixture: a setter whose first argument is const-qualified and whose
second argument maps through the table. -/
def setConstFn : LvFunc :=
  ⟨"lv_arc_set_x", [⟨"arc", ⟨"const lv_obj_t *"⟩⟩, ⟨"x", ⟨"uint16_t"⟩⟩], none⟩

/-- Test fixture: the method code emitted for `setConstFn` under the arc
widget. -/
def setConstMc : MethodCode :=
  { func_name := "set_x",
    args_decl := [ParamDecl.recv Receiver.selfRef, ParamDecl.typed "x" (RustTypeTok.ident "u16")],
    args_processing := [],
    original_func_name := "lv_arc_set_x",
    args_call := [CallArg.selfCoreRawAsMut, CallArg.plain "x"] }

/-- Test fixture: the label set_text function from the repository's unit
tests, with a string argument. -/
def labelSetTextFn : LvFunc :=
  ⟨"lv_label_set_text", [⟨"label", ⟨"lv_obj_t *"⟩⟩, ⟨"text", ⟨"const char *"⟩⟩], none⟩

/-- Test fixture: an empty widget named label. -/
def labelEmptyWidget : LvWidget :=
  ⟨"label", []⟩

/-- Test fixture: the method code emitted for `labelSetTextFn` under the
label widget. -/
def labelSetTextMc : MethodCode :=
  { func_name := "set_text",
    args_decl := [ParamDecl.recv Receiver.selfMutRef, ParamDecl.typed "text" RustTypeTok.strRef],
    args_processing := [ProcStmt.cstrInit "text"],
    original_func_name := "lv_label_set_text",
    args_call := [CallArg.selfCoreRawAsMut, CallArg.ptrOf "text"] }

/-- Test fixture: a method whose only argument is const-qualified. -/
def syncConstFn : LvFunc :=
  ⟨"lv_bar_sync", [⟨"bar", ⟨"const lv_obj_t *"⟩⟩], none⟩

/-- Test fixture: an empty widget named bar. -/
def barEmptyWidget : LvWidget :=
  ⟨"bar", []⟩

/-- Test fixture: the method code emitted for `syncConstFn` under the bar
widget (immutable receiver, yet a mutable raw handle at the call site). -/
def syncConstMc : MethodCode :=
  { func_name := "sync",
    args_decl := [ParamDecl.recv Receiver.selfRef],
    args_processing := [],
    original_func_name := "lv_bar_sync",
    args_call := [CallArg.selfCoreRawAsMut] }

theorem concatMap_resultToList_eq_filterMap {α β : Type} (g : α → WrapperResult β) (l : List α) :
    concatMap (fun a => resultToList (g a)) l = l.filterMap (fun a => (g a).toOption) := by
  induction l with
  | nil => rfl
  | cons x xs ih =>
    simp only [concatMap, List.filterMap_cons]
    rw [ih]
    cases hg : g x with
    | ok b => rfl
    | error e => rfl

theorem foldl_append_concatMap {α β : Type} (g : α → List β) :
    ∀ (l : List α) (acc : List β),
      l.foldl (fun acc' x => acc' ++ g x) acc = acc ++ concatMap g l := by
  intro l
  induction l with
  | nil => intro acc; simp [concatMap]
  | cons x xs ih =>
    intro acc
    simp only [List.foldl_cons, concatMap]
    rw [ih, List.append_assoc]

theorem enumerate_fold_shift {α β : Type} (u g : α → List β) :
    ∀ (l : List α) (n : Nat),
      concatMap (fun ia : Nat × α => if ia.1 = 0 then u ia.2 else g ia.2) (enumerate (n + 1) l)
        = concatMap g l := by
  intro l
  induction l with
  | nil => intro n; rfl
  | cons x xs ih =>
    intro n
    simp only [enumerate, concatMap]
    rw [ih]
    simp

theorem enumerate_fold {α β : Type} (u g : α → List β) (x : α) (xs : List α) :
    (enumerate 0 (x :: xs)).foldl (fun args ia =>
        args ++ (if ia.1 = 0 then u ia.2 else g ia.2)) []
      = u x ++ concatMap g xs := by
  show (((0, x) :: enumerate (0 + 1) xs).foldl (fun args ia =>
      args ++ (if ia.1 = 0 then u ia.2 else g ia.2)) []) = u x ++ concatMap g xs
  rw [List.foldl_cons, foldl_append_concatMap]
  rw [enumerate_fold_shift u g xs 0]
  simp

/-- C1 (counterexample): the spelling "char *" does end with "char *", yet the
type mapper fails it with Skip, because it is not a key of the lookup table —
the exact-match lookup happens first, so the suffix test never rescues it. -/
theorem char_ptr_without_const_skips :
    LvType.is_str ⟨"char *"⟩ = true ∧
    LvType.code ⟨"char *"⟩ ⟨"txt", ⟨"char *"⟩⟩ = .error WrapperError.Skip :=
  ⟨rfl, rfl⟩

/-- C1 (amended): for a type whose spelling ends with "char *", the type
mapper emits the string-reference type exactly when the spelling is a key of
the lookup table, and fails with Skip otherwise — table lookup takes
precedence over the suffix test. -/
theorem str_type_maps_only_via_table (t : LvType) (a : LvArg) (h : t.is_str = true) :
    LvType.code t a =
      if (TYPE_MAPPINGS.lookup t.typ).isSome then .ok RustTypeTok.strRef
      else .error WrapperError.Skip := by
  cases hl : TYPE_MAPPINGS.lookup t.typ with
  | none => simp [LvType.code, hl]
  | some name => simp [LvType.code, hl, h]

/-- Witness for the amended C1 theorem at the table key "const char *". -/
theorem str_type_maps_only_via_table_witness :
    LvType.code ⟨"const char *"⟩ ⟨"text", ⟨"const char *"⟩⟩ = .ok RustTypeTok.strRef :=
  str_type_maps_only_via_table ⟨"const char *"⟩ ⟨"text", ⟨"const char *"⟩⟩ rfl

/-- C5: widget emission fails with Skip exactly for the generic base object
"obj"; any other widget yields the PascalCase object declaration plus
exactly the methods whose own emission succeeds (per-method skips are
filtered out, never propagated). -/
theorem widget_code_obj_skip_and_methods (w : LvWidget) :
    (w.name = "obj" → LvWidget.code w () = .error WrapperError.Skip) ∧
    (w.name ≠ "obj" → LvWidget.code w () =
      .ok { widget_name := to_pascal_case w.name,
            methods := w.methods.filterMap (fun m => (LvFunc.code m w).toOption) }) := by
  constructor
  · intro h
    simp [LvWidget.code, h]
  · intro h
    simp [LvWidget.code, h, concatMap_resultToList_eq_filterMap]

/-- Witness for C5 at the widgets obj (skipped) and arc (emitted). -/
theorem widget_code_obj_skip_and_methods_witness :
    LvWidget.code ⟨"obj", []⟩ () = .error WrapperError.Skip ∧
    LvWidget.code ⟨"arc", []⟩ () = .ok { widget_name := "Arc", methods := [] } := by
  refine ⟨(widget_code_obj_skip_and_methods ⟨"obj", []⟩).1 rfl, ?_⟩
  rw [(widget_code_obj_skip_and_methods ⟨"arc", []⟩).2 (by decide)]
  rfl

theorem argCode_isOk_iff (a : LvArg) (f : LvFunc) :
    (LvArg.code a f).isOk = true ↔ ¬ (LvType.code a.typ a = .error WrapperError.Skip) := by
  cases ht : LvType.code a.typ a with
  | ok t => simp [LvArg.code, ht, Except.isOk, Except.toBool]
  | error e => cases e; simp [LvArg.code, ht, Except.isOk, Except.toBool]

/-- C6: for a function whose template-stripped name is not "create", method
emission fails with Skip exactly when the function has a return type or some
argument past the first fails type mapping; the first argument's type is
never consulted, and otherwise emission succeeds. -/
theorem method_code_skip_iff (f : LvFunc) (w : LvWidget)
    (h : (⟨removeAll ("lv_" ++ w.name ++ "_").data f.name.data⟩ : String) ≠ "create") :
    (LvFunc.code f w = .error WrapperError.Skip ↔
      f.ret.isSome = true ∨ ∃ a ∈ f.args.drop 1, LvType.code a.typ a = .error WrapperError.Skip) := by
  simp only [LvFunc.code]
  rw [if_neg h]
  cases hr : f.ret with
  | some r =>
    constructor
    · intro _
      exact Or.inl rfl
    · intro _
      rfl
  | none =>
    rw [if_neg (by simp : ¬((none : Option LvType).isSome = true))]
    by_cases hall : ((f.args.drop 1).all fun a => (a.code f).isOk) = true
    · rw [if_pos hall]
      constructor
      · intro hco
        exact Except.noConfusion hco
      · rintro (hfalse | ⟨a, ha, hskip⟩)
        · simp at hfalse
        · have hok := List.all_eq_true.mp hall a ha
          rw [argCode_isOk_iff] at hok
          exact absurd hskip hok
    · rw [if_neg hall]
      constructor
      · intro _
        refine Or.inr ?_
        have hex : ∃ a ∈ f.args.drop 1, ¬((a.code f).isOk = true) := by
          by_contra hno
          push_neg at hno
          exact hall (List.all_eq_true.mpr hno)
        obtain ⟨a, ha, hnok⟩ := hex
        exact ⟨a, ha, not_not.mp (mt (argCode_isOk_iff a f).mpr hnok)⟩
      · intro _
        rfl

/-- Witness for C6: a getter with a return type is skipped. -/
theorem method_code_skip_iff_witness :
    LvFunc.code getAngleFn arcEmptyWidget = .error WrapperError.Skip :=
  (method_code_skip_iff getAngleFn arcEmptyWidget (by decide)).mpr (Or.inl rfl)

/-- C7: when the template-stripped name equals "create", emission always
succeeds — even with a return type present — and yields the generic
constructor calling the native create function with the parent's raw handle
and a null second argument; none of the declared parameters (in particular
the copy source) is surfaced. -/
theorem create_code_always_ctor (f : LvFunc) (w : LvWidget)
    (h : (⟨removeAll ("lv_" ++ w.name ++ "_").data f.name.data⟩ : String) = "create") :
    LvFunc.code f w = .ok (FnCode.ctor f.name [CallArg.parentRawAsMut, CallArg.nullMut]) := by
  simp only [LvFunc.code]
  rw [if_pos h]

/-- Witness for C7 at the arc create function, which has a return type. -/
theorem create_code_always_ctor_witness :
    LvFunc.code arcCreateFn arcEmptyWidget =
      .ok (FnCode.ctor "lv_arc_create" [CallArg.parentRawAsMut, CallArg.nullMut]) ∧
    arcCreateFn.ret.isSome = true :=
  ⟨create_code_always_ctor arcCreateFn arcEmptyWidget (by decide), rfl⟩

theorem code_ok_method_shape (f : LvFunc) (w : LvWidget) (mc : MethodCode)
    (h : LvFunc.code f w = .ok (FnCode.method mc)) :
    mc = { func_name := ⟨removeAll ("lv_" ++ w.name ++ "_").data f.name.data⟩,
           args_decl := (enumerate 0 f.args).foldl (fun args ia =>
             args ++ (if ia.1 = 0 then
               [ParamDecl.recv (if ia.2.get_type.is_const then Receiver.selfRef else Receiver.selfMutRef)]
             else
               [unwrapParamDecl (ia.2.code f)])) [],
           args_processing := (enumerate 0 f.args).foldl (fun args ia =>
             args ++ (if ia.1 = 0 then [] else ia.2.get_processing)) [],
           original_func_name := f.name,
           args_call := (enumerate 0 f.args).foldl (fun args ia =>
             args ++ (if ia.1 = 0 then [CallArg.selfCoreRawAsMut] else [ia.2.get_value_usage])) [] } := by
  simp only [LvFunc.code] at h
  split_ifs at h
  all_goals injection h with h2
  all_goals try exact FnCode.noConfusion h2
  injection h2 with h3
  exact h3.symm

theorem concatMap_singleton {α β : Type} (g : α → β) (l : List α) :
    concatMap (fun x => [g x]) l = l.map g := by
  induction l with
  | nil => rfl
  | cons x xs ih => simp [concatMap, ih]

/-- C8: in a successfully emitted method, the first parameter becomes the
receiver, immutable exactly when the first argument's type is
const-qualified. -/
theorem method_receiver_mutability (f : LvFunc) (w : LvWidget) (mc : MethodCode)
    (a0 : LvArg) (rest : List LvArg)
    (hcode : LvFunc.code f w = .ok (FnCode.method mc))
    (hargs : f.args = a0 :: rest) :
    mc.args_decl.head? =
      some (ParamDecl.recv (if a0.typ.is_const then Receiver.selfRef else Receiver.selfMutRef)) := by
  have hmc := code_ok_method_shape f w mc hcode
  subst hmc
  simp only [hargs]
  rw [enumerate_fold
    (fun a => [ParamDecl.recv (if a.get_type.is_const then Receiver.selfRef else Receiver.selfMutRef)])
    (fun a => [unwrapParamDecl (a.code f)]) a0 rest]
  simp [LvArg.get_type]

/-- Witness for C8: a const-qualified first argument yields the immutable
receiver. -/
theorem method_receiver_mutability_witness :
    setConstMc.args_decl.head? = some (ParamDecl.recv Receiver.selfRef) :=
  method_receiver_mutability setConstFn arcEmptyWidget setConstMc
    ⟨"arc", ⟨"const lv_obj_t *"⟩⟩ [⟨"x", ⟨"uint16_t"⟩⟩] rfl rfl

/-- C9: in a successfully emitted method, every argument past the first whose
type ends in "char *" contributes a CString construction statement before
the call and is passed as a raw pointer at the call site; every other
argument contributes no pre-call statement and is passed through unchanged. -/
theorem method_arg_marshalling (f : LvFunc) (w : LvWidget) (mc : MethodCode)
    (a0 : LvArg) (rest : List LvArg)
    (hcode : LvFunc.code f w = .ok (FnCode.method mc))
    (hargs : f.args = a0 :: rest) :
    mc.args_processing =
      concatMap (fun a => if a.typ.is_str then [ProcStmt.cstrInit a.get_name_ident] else []) rest ∧
    mc.args_call =
      CallArg.selfCoreRawAsMut ::
        rest.map (fun a =>
          if a.typ.is_str then CallArg.ptrOf a.get_name_ident else CallArg.plain a.get_name_ident) := by
  have hmc := code_ok_method_shape f w mc hcode
  subst hmc
  simp only [hargs]
  constructor
  · rw [enumerate_fold (fun _ => ([] : List ProcStmt)) (fun a => a.get_processing) a0 rest]
    rfl
  · rw [enumerate_fold (fun _ => [CallArg.selfCoreRawAsMut]) (fun a => [a.get_value_usage]) a0 rest]
    rw [concatMap_singleton LvArg.get_value_usage rest]
    rfl

/-- Witness for C9: the label set_text method marshals its string argument
and passes its raw pointer, after the raw handle. -/
theorem method_arg_marshalling_witness :
    labelSetTextMc.args_processing = [ProcStmt.cstrInit "text"] ∧
    labelSetTextMc.args_call = [CallArg.selfCoreRawAsMut, CallArg.ptrOf "text"] :=
  method_arg_marshalling labelSetTextFn labelEmptyWidget labelSetTextMc
    ⟨"label", ⟨"lv_obj_t *"⟩⟩ [⟨"text", ⟨"const char *"⟩⟩] rfl rfl

/-- C10: in every successfully emitted method, the first call-site argument
is the mutable raw-handle expression, regardless of the declared
const-qualification of the first parameter. -/
theorem method_first_call_arg_raw_mut (f : LvFunc) (w : LvWidget) (mc : MethodCode)
    (a0 : LvArg) (rest : List LvArg)
    (hcode : LvFunc.code f w = .ok (FnCode.method mc))
    (hargs : f.args = a0 :: rest) :
    mc.args_call.head? = some CallArg.selfCoreRawAsMut := by
  have hmc := code_ok_method_shape f w mc hcode
  subst hmc
  simp only [hargs]
  rw [enumerate_fold (fun _ => [CallArg.selfCoreRawAsMut]) (fun a => [a.get_value_usage]) a0 rest]
  rfl

/-- Witness for C10: a method with a const-qualified first argument (hence
an immutable receiver) still passes the mutable raw handle first. -/
theorem method_first_call_arg_raw_mut_witness :
    syncConstMc.args_call.head? = some CallArg.selfCoreRawAsMut ∧
    syncConstMc.args_decl = [ParamDecl.recv Receiver.selfRef] :=
  ⟨method_first_call_arg_raw_mut syncConstFn barEmptyWidget syncConstMc
    ⟨"bar", ⟨"const lv_obj_t *"⟩⟩ [] rfl rfl, rfl⟩

theorem matchTail_eq_some : ∀ (l w : List Char),
    matchTail l = some w ↔ (l = w ++ '_' :: "create".data ∧ '_' ∉ w) := by
  intro l
  induction l with
  | nil =>
    intro w
    constructor
    · intro h
      exact absurd h (by simp [matchTail])
    · rintro ⟨h1, -⟩
      exact absurd h1 (by simp)
  | cons c rest ih =>
    intro w
    by_cases hc : c = '_'
    · subst hc
      by_cases hr : rest = "create".data
      · subst hr
        constructor
        · intro h
          have hw : w = [] := by
            simp only [matchTail, if_pos rfl] at h
            exact (Option.some.inj h).symm
          subst hw
          exact ⟨rfl, by simp⟩
        · rintro ⟨h1, h2⟩
          have hw : w = [] := by
            cases w with
            | nil => rfl
            | cons c' w' =>
              injection h1 with he ht
              exact absurd (by rw [← he]; exact List.mem_cons_self _ _) h2
          subst hw
          simp [matchTail]
      · constructor
        · intro h
          simp [matchTail, hr] at h
        · rintro ⟨h1, h2⟩
          exfalso
          cases w with
          | nil =>
            injection h1 with _ ht
            exact hr ht
          | cons c' w' =>
            injection h1 with he _
            exact h2 (by rw [← he]; exact List.mem_cons_self _ _)
    · constructor
      · intro h
        simp only [matchTail, if_neg hc] at h
        rcases Option.map_eq_some'.mp h with ⟨w', hw', hcw⟩
        rcases (ih w').mp hw' with ⟨h1, h2⟩
        subst hcw
        refine ⟨by simp [h1], ?_⟩
        intro hmem
        rcases List.mem_cons.mp hmem with h' | h'
        · exact hc h'.symm
        · exact h2 h'
      · rintro ⟨h1, h2⟩
        cases w with
        | nil =>
          exfalso
          injection h1 with he _
          exact hc he
        | cons c' w' =>
          injection h1 with he ht
          subst he
          have h2' : '_' ∉ w' := fun hm => h2 (List.mem_cons_of_mem _ hm)
          have hmt := (ih w').mpr ⟨ht, h2'⟩
          simp only [matchTail, if_neg hc, hmt, Option.map_some']

theorem captures_create_eq_some (n : String) (w : String) :
    captures_create n = some w ↔
      (n.data = "lv_".data ++ w.data ++ "_create".data ∧ w.data ≠ [] ∧ '_' ∉ w.data) := by
  have hpre : ("lv_".data ++ w.data ++ "_create".data)
      = 'l' :: 'v' :: '_' :: (w.data ++ '_' :: "create".data) := by simp
  rw [hpre]
  unfold captures_create
  split
  next rest heq =>
    rw [heq]
    simp only [List.cons.injEq, true_and]
    cases hm : matchTail rest with
    | none =>
      constructor
      · intro h
        exact absurd h (by simp)
      · rintro ⟨h1, h2, h3⟩
        have := (matchTail_eq_some rest w.data).mpr ⟨h1, h3⟩
        rw [hm] at this
        exact absurd this (by simp)
    | some wname =>
      rcases (matchTail_eq_some rest wname).mp hm with ⟨h1, h2⟩
      by_cases he : wname = []
      · subst he
        constructor
        · intro h
          exact absurd h (by simp)
        · rintro ⟨hh1, hh2, hh3⟩
          exfalso
          rw [h1] at hh1
          rcases hw : w.data with _ | ⟨c', w'⟩
          · exact hh2 hw
          · rw [hw] at hh1
            have he' : '_' = c' := by
              injection hh1.symm with hce _
              exact hce.symm
            exact hh3 (by rw [hw, ← he']; exact List.mem_cons_self _ _)
      · dsimp only
        rw [if_neg (by simpa using he)]
        constructor
        · intro h
          have hw : (⟨wname⟩ : String) = w := Option.some.inj h
          subst hw
          exact ⟨by rw [h1], he, h2⟩
        · rintro ⟨hh1, hh2, hh3⟩
          have hmt := (matchTail_eq_some rest w.data).mpr ⟨hh1, hh3⟩
          rw [hm] at hmt
          have hww : wname = w.data := Option.some.inj hmt
          rw [hww]
  next hne =>
    constructor
    · intro h
      exact absurd h (by simp)
    · rintro ⟨h1, h2, h3⟩
      exact absurd h1 (by intro hcontr; exact hne _ hcontr)

/-- C3: the extracted widget-name set is exactly the set of captured names w
such that some function is named lv_ + w + _create (w nonempty, containing
no underscore, as captured by the anchored pattern) and has exactly two
arguments. -/
theorem get_widget_names_characterization (fs : List LvFunc) (w : String) :
    w ∈ get_widget_names fs ↔
      ∃ f ∈ fs, f.name.data = "lv_".data ++ w.data ++ "_create".data ∧
        w.data ≠ [] ∧ '_' ∉ w.data ∧ f.args.length = 2 := by
  simp only [get_widget_names, List.mem_filterMap, List.mem_filter]
  constructor
  · rintro ⟨f, ⟨hf, hcond⟩, hcap⟩
    rcases (captures_create_eq_some f.name w).mp hcap with ⟨h1, h2, h3⟩
    simp only [Bool.and_eq_true, beq_iff_eq] at hcond
    exact ⟨f, hf, h1, h2, h3, hcond.2⟩
  · rintro ⟨f, hf, h1, h2, h3, h4⟩
    have hcap : captures_create f.name = some w :=
      (captures_create_eq_some f.name w).mpr ⟨h1, h2, h3⟩
    refine ⟨f, ⟨hf, ?_⟩, hcap⟩
    simp [hcap, h4]

theorem insert_method_name_ne (ws : List LvWidget) (n m : String) (f : LvFunc)
    (hnm : n ≠ m) (h : ∀ w ∈ ws, w.name ≠ m) :
    ∀ w ∈ insert_method ws n f, w.name ≠ m := by
  induction ws with
  | nil =>
    intro w hw
    simp only [insert_method, List.mem_singleton] at hw
    rw [hw]
    exact hnm
  | cons w0 ws ih =>
    intro w hw
    simp only [insert_method] at hw
    split_ifs at hw with he
    · rcases List.mem_cons.mp hw with rfl | hw'
      · exact h w0 (List.mem_cons_self _ _)
      · exact h w (List.mem_cons_of_mem _ hw')
    · rcases List.mem_cons.mp hw with heq | hw'
      · rw [heq]
        exact h w0 (List.mem_cons_self _ _)
      · exact ih (fun w' hw'' => h w' (List.mem_cons_of_mem _ hw'')) w hw'

theorem inner_fold_name_ne (f : LvFunc) (m : String) (hf : widget_match m f = false)
    (names : List String) :
    ∀ (ws : List LvWidget), (∀ w ∈ ws, w.name ≠ m) →
      ∀ w ∈ names.foldl (fun ws' widget_name =>
          if widget_match widget_name f then insert_method ws' widget_name f else ws') ws,
        w.name ≠ m := by
  induction names with
  | nil =>
    intro ws h w hw
    rw [List.foldl_nil] at hw
    exact h w hw
  | cons n names ih =>
    intro ws h
    simp only [List.foldl_cons]
    apply ih
    by_cases hg : widget_match n f = true
    · rw [if_pos hg]
      apply insert_method_name_ne _ _ _ _ ?_ h
      intro heq
      rw [heq, hf] at hg
      exact Bool.noConfusion hg
    · rw [if_neg hg]
      exact h

theorem outer_fold_name_ne (m : String) (names : List String) (fs : List LvFunc) :
    ∀ (ws : List LvWidget),
      (∀ f ∈ fs, widget_match m f = false) →
      (∀ w ∈ ws, w.name ≠ m) →
      ∀ w ∈ fs.foldl (fun ws f =>
          names.foldl (fun ws' widget_name =>
            if widget_match widget_name f then insert_method ws' widget_name f else ws') ws) ws,
        w.name ≠ m := by
  induction fs with
  | nil =>
    intro ws _ h w hw
    rw [List.foldl_nil] at hw
    exact h w hw
  | cons f fs ih =>
    intro ws hfs hws
    simp only [List.foldl_cons]
    apply ih
    · intro g hg
      exact hfs g (List.mem_cons_of_mem _ hg)
    · exact inner_fold_name_ne f m (hfs f (List.mem_cons_self _ _)) names ws hws

/-- C2 (counterexample): the function list from the repository's own test
data discovers the widget name btn, yet its create function is not a method
(its first argument's type does not mention the object-handle type), so
widget extraction yields no widget at all — not a widget with an empty
method list. -/
theorem widget_name_without_methods_counterexample :
    get_widget_names fsNoMethods = ["btn"] ∧ extract_widgets fsNoMethods = [] :=
  ⟨rfl, rfl⟩

/-- C2 (amended): a discovered widget name for which zero functions qualify
as methods (no function both starts with the widget's name template and
passes the is_method test) yields no Widget in the output collection; a
Widget entry is only ever created when some function is assigned to it. -/
theorem extract_widgets_no_match_no_widget (fs : List LvFunc) (m : String)
    (_hm : m ∈ get_widget_names fs)
    (h : ∀ f ∈ fs, widget_match m f = false) :
    (extract_widgets fs).filter (fun w => w.name == m) = [] := by
  have hall : ∀ w ∈ extract_widgets fs, w.name ≠ m := by
    simp only [extract_widgets]
    exact outer_fold_name_ne m (get_widget_names fs) fs [] h (by simp)
  rw [List.filter_eq_nil_iff]
  intro w hw
  simpa using hall w hw

/-- Witness for the amended C2 theorem on the fixture list. -/
theorem extract_widgets_no_match_no_widget_witness :
    (extract_widgets fsNoMethods).filter (fun w => w.name == "btn") = [] :=
  extract_widgets_no_match_no_widget fsNoMethods "btn" (by decide) (by decide)

theorem insert_method_methods_match (ws : List LvWidget) (n : String) (f : LvFunc)
    (hf : widget_match n f = true)
    (h : ∀ w ∈ ws, ∀ g ∈ w.methods, widget_match w.name g = true) :
    ∀ w ∈ insert_method ws n f, ∀ g ∈ w.methods, widget_match w.name g = true := by
  induction ws with
  | nil =>
    intro w hw g hg
    simp only [insert_method, List.mem_singleton] at hw
    subst hw
    rw [List.mem_singleton] at hg
    subst hg
    exact hf
  | cons w0 ws ih =>
    intro w hw
    simp only [insert_method] at hw
    split_ifs at hw with he
    · rcases List.mem_cons.mp hw with heq | hw'
      · subst heq
        intro g hg
        rcases List.mem_append.mp hg with hg' | hg'
        · exact h w0 (List.mem_cons_self _ _) g hg'
        · rw [List.mem_singleton] at hg'
          subst hg'
          rw [he]
          exact hf
      · exact h w (List.mem_cons_of_mem _ hw')
    · rcases List.mem_cons.mp hw with heq | hw'
      · rw [heq]
        exact h w0 (List.mem_cons_self _ _)
      · exact ih (fun w' hw'' => h w' (List.mem_cons_of_mem _ hw'')) w hw'

theorem inner_fold_methods_match (f : LvFunc) (names : List String) :
    ∀ (ws : List LvWidget),
      (∀ w ∈ ws, ∀ g ∈ w.methods, widget_match w.name g = true) →
      ∀ w ∈ names.foldl (fun ws' widget_name =>
          if widget_match widget_name f then insert_method ws' widget_name f else ws') ws,
        ∀ g ∈ w.methods, widget_match w.name g = true := by
  induction names with
  | nil =>
    intro ws h w hw
    rw [List.foldl_nil] at hw
    exact h w hw
  | cons n names ih =>
    intro ws h
    simp only [List.foldl_cons]
    apply ih
    by_cases hg : widget_match n f = true
    · rw [if_pos hg]
      exact insert_method_methods_match ws n f hg h
    · rw [if_neg hg]
      exact h

theorem outer_fold_methods_match (names : List String) (fs : List LvFunc) :
    ∀ (ws : List LvWidget),
      (∀ w ∈ ws, ∀ g ∈ w.methods, widget_match w.name g = true) →
      ∀ w ∈ fs.foldl (fun ws f =>
          names.foldl (fun ws' widget_name =>
            if widget_match widget_name f then insert_method ws' widget_name f else ws') ws) ws,
        ∀ g ∈ w.methods, widget_match w.name g = true := by
  induction fs with
  | nil =>
    intro ws h w hw
    rw [List.foldl_nil] at hw
    exact h w hw
  | cons f fs ih =>
    intro ws h
    simp only [List.foldl_cons]
    apply ih
    exact inner_fold_methods_match f names ws h

/-- C4 (counterexample): with two discovered widget names where one is a
textual prefix of the other (btn and btnmatrix), the btnmatrix create
function is assigned to both widgets' method lists — a Function can be owned
by two different Widgets. -/
theorem function_in_two_widgets_counterexample :
    extract_widgets fsBtnPair =
      [⟨"btn", [btnCreateFn, btnmatrixCreateFn]⟩, ⟨"btnmatrix", [btnmatrixCreateFn]⟩] ∧
    btnmatrixCreateFn ∈ (LvWidget.mk "btn" [btnCreateFn, btnmatrixCreateFn]).methods ∧
    btnmatrixCreateFn ∈ (LvWidget.mk "btnmatrix" [btnmatrixCreateFn]).methods := by
  refine ⟨rfl, ?_, ?_⟩ <;> simp

/-- C4 (amended): every Function retained in a Widget's method list matches
that Widget (its name starts with the lib prefix followed by the widget's
name, and it passes the is_method test); a Function matching no discovered
widget prefix is retained nowhere.  A Function may however be assigned to
several Widgets whose prefixes it matches. -/
theorem extract_widgets_method_provenance (fs : List LvFunc) (w : LvWidget)
    (hw : w ∈ extract_widgets fs) (f : LvFunc) (hf : f ∈ w.methods) :
    ("lv_" ++ w.name).data.isPrefixOf f.name.data = true ∧ f.is_method = true := by
  simp only [extract_widgets] at hw
  have hmatch := outer_fold_methods_match (get_widget_names fs) fs [] (by simp) w hw f hf
  simpa only [widget_match, Bool.and_eq_true] using hmatch

/-- Witness for the amended C4 theorem: the btnmatrix create function inside
the btnmatrix widget matches its owner. -/
theorem extract_widgets_method_provenance_witness :
    ("lv_" ++ "btnmatrix").data.isPrefixOf btnmatrixCreateFn.name.data = true ∧
    btnmatrixCreateFn.is_method = true :=
  extract_widgets_method_provenance fsBtnPair ⟨"btnmatrix", [btnmatrixCreateFn]⟩
    (by decide) btnmatrixCreateFn (by decide)
